import Mathlib

/-! Verification development for the prestation validation and invoicing core of the
The-event repository: the work-entry lifecycle handlers of
`frontend/src/pages/DashboardAdminPrestations.tsx`, the collaborator submission form of
`DashboardCollaborateur` (zod schema + submit handler), the client update dialog, the
monthly invoice batch job, and the auth-context profile resolution.  Supabase tables are
embedded as association lists keyed by id; JS numbers on these paths are embedded as `ℚ`. -/

/-- Association-list lookup modelling a supabase `select ... .eq('id', k).single()`:
the first row whose key equals `k`. -/
def findRow {α : Type} : List (String × α) → String → Option α
  | [], _ => none
  | e :: rest, k => if e.1 = k then some e.2 else findRow rest k

/-- Association-list update modelling a supabase `update(...).eq('id', k)`: every row whose
key equals `k` is rewritten by `f`, all other rows are untouched. -/
def updateRow {α : Type} : List (String × α) → String → (α → α) → List (String × α)
  | [], _, _ => []
  | e :: rest, k, f => (if e.1 = k then (e.1, f e.2) else e) :: updateRow rest k f

/-! ## DurationCalculator: the collaborator submission path
(`DashboardCollaborateur`, src/unnamed/part_003).  The zod schema checks both times
against the regex `([01]\d|2[0-3]):([0-5]\d)` and then a refine adds 24h to the end
time when it is not after the start; `onSubmit` redoes the same adjustment on `Date`
values and divides the millisecond span by 3600000, keeping two decimals via
`Number(h.toFixed(2))`. -/

/-- Character class `[0-9]` of the schema regex. -/
def isDigitChar (c : Char) : Bool := '0' ≤ c && c ≤ '9'

/-- Numeric value of a digit character. -/
def digitVal (c : Char) : Nat := c.toNat - 48

/-- The zod regex `^([01]\d|2[0-3]):([0-5]\d)$` of `prestationSchema`, stated semantically:
a five character string `h1 h2 : m1 m2` whose two-digit hour is at most 23 and whose
two-digit minute is at most 59 (exactly the strings the alternation accepts). -/
def isHHMM (s : String) : Bool :=
  match s.data with
  | [h1, h2, c, m1, m2] =>
      isDigitChar h1 && isDigitChar h2 && c = ':' && isDigitChar m1 && isDigitChar m2 &&
      decide (digitVal h1 * 10 + digitVal h2 ≤ 23) &&
      decide (digitVal m1 * 10 + digitVal m2 ≤ 59)
  | _ => false

/-- The `split(':').map(Number)` decomposition used by both the schema refine and
`onSubmit`; on strings matching the HH:MM regex (the only strings it is applied to,
since zod runs the refine after the field regexes pass) it is the pair
(hour value, minute value). -/
def timeParts (s : String) : Nat × Nat :=
  match s.data with
  | [h1, h2, _, m1, m2] => (digitVal h1 * 10 + digitVal h2, digitVal m1 * 10 + digitVal m2)
  | _ => (0, 0)

/-- `startHour * 60 + startMinute`, as computed in the refine. -/
def timeMinutes (s : String) : Nat := (timeParts s).1 * 60 + (timeParts s).2

/-- The overnight adjustment shared by the refine and `onSubmit`: when the end clock time
is not after the start clock time the end is pushed to the following day
(`endTime += 24 * 60`, respectively `endDate.setDate(endDate.getDate() + 1)`). -/
def adjustedEnd (debut fin : String) : Nat :=
  if timeMinutes fin ≤ timeMinutes debut then timeMinutes fin + 1440 else timeMinutes fin

/-- The `.refine` of `prestationSchema`: after the overnight adjustment the end must be
after the start (`return endTime > startTime`). -/
def refineOk (debut fin : String) : Bool :=
  decide (timeMinutes debut < adjustedEnd debut fin)

/-- Two-decimal rounding, `Number(x.toFixed(2))`.  On this path the value times 100 is
never a half-integer (denominators divide 3), so nearest rounding is unambiguous. -/
def round2 (x : ℚ) : ℚ := (round (x * 100) : ℚ) / 100

/-- The `onSubmit` hour computation of `DashboardCollaborateur`: the millisecond span
between the two `Date` values (the adjusted end minus the start, in minutes, times
60000 ms) divided by `1000 * 60 * 60`, kept at two decimals. -/
def onSubmitHours (debut fin : String) : ℚ :=
  round2 ((((adjustedEnd debut fin - timeMinutes debut : ℕ) : ℚ) * 60000) / 3600000)

/-- Result of submitting the prestation form. -/
inductive SubmitResult
  | rejected
  | accepted (hours : ℚ)
deriving DecidableEq

/-- The collaborator submission pipeline restricted to the time fields: the zod field
regexes, then the refine, then the `onSubmit` hour computation.  The remaining schema
fields (date, client, project, adresse) do not enter the hour computation. -/
def submitPrestation (debut fin : String) : SubmitResult :=
  if isHHMM debut && isHHMM fin && refineOk debut fin then
    .accepted (onSubmitHours debut fin)
  else .rejected

/-! ## The admin recomputation path
(`DashboardAdminPrestations.tsx`: the recalculate-hours effect, `handleSaveChanges` and
`handleSaveAndValidate` all inline the same `parseTime` helper and the same
`end > start` rule, with 0 otherwise). -/

/-- Longest leading digit run of a character list, for the `parseInt(_, 10)` model. -/
def leadingDigits : List Char → List Char
  | [] => []
  | c :: cs => if isDigitChar c then c :: leadingDigits cs else []

/-- Value of a digit list, most significant first. -/
def digitsToNat (l : List Char) : Nat := l.foldl (fun n c => n * 10 + digitVal c) 0

/-- `parseInt(s, 10)`: the value of the leading digit run, NaN (`none`) when there is
none.  (Signs and exotic whitespace do not occur in the `<input type="time">` strings
this is applied to.) -/
def parseIntJS (s : String) : Option Nat :=
  match leadingDigits s.data with
  | [] => none
  | ds => some (digitsToNat ds)

/-- The inline `parseTime` of `DashboardAdminPrestations`: requires a ':', splits on it,
parses both parts with `parseInt`, and returns `hours + minutes / 60` as a number. -/
def parseTimeJS (s : String) : Option ℚ :=
  if s.contains ':' then
    match parseIntJS ((s.splitOn ":").getD 0 ""), parseIntJS ((s.splitOn ":").getD 1 "") with
    | some h, some m => some ((h : ℚ) + (m : ℚ) / 60)
    | _, _ => none
  else none

/-- The admin hour recomputation: `end - start` when both times parse and `end > start`,
and 0 in every other case (no overnight adjustment on this path). -/
def adminComputedHours (debut fin : String) : ℚ :=
  match parseTimeJS debut, parseTimeJS fin with
  | some s, some e => if s < e then e - s else 0
  | _, _ => 0

/-! ## WorkEntryLifecycle state
The `prestations` and `clients` supabase tables as seen by the admin handlers. -/

/-- A row of the `prestations` table (the columns touched by the handlers). -/
structure Prestation where
  date_prestation : String
  heure_debut : String
  heure_fin : String
  heures_calculees : ℚ
  adresse : String
  statut_validation : String
  tarif_horaire_utilise : Option ℚ
  client_id : String
  project_id : Option String
deriving DecidableEq

/-- A row of the `clients` table (the columns the handlers read or write). -/
structure ClientRow where
  nom : String
  tarif_horaire : Option ℚ
deriving DecidableEq

/-- The shared store. -/
structure DB where
  prestations : List (String × Prestation)
  clients : List (String × ClientRow)
deriving DecidableEq

/-- Outcome of `handleValidate`. -/
inductive ValidateOutcome
  | ok
  | clientFetchError
  | noTariff
deriving DecidableEq

/-- `handleValidate` of `DashboardAdminPrestations.tsx`: fetch the client row
(`.single()`, error if absent), throw when `tarif_horaire` is null or undefined, and
otherwise run `update({statut_validation: 'valide', tarif_horaire_utilise: t}).eq('id',
prestationId)` — an unconditional update with no status guard. -/
def handleValidate (db : DB) (prestationId clientId : String) : DB × ValidateOutcome :=
  match findRow db.clients clientId with
  | none => (db, .clientFetchError)
  | some c =>
    match c.tarif_horaire with
    | none => (db, .noTariff)
    | some t =>
      ({ db with prestations := updateRow db.prestations prestationId (fun p =>
          { p with statut_validation := "valide", tarif_horaire_utilise := some t }) },
       .ok)

/-- The modification-modal form state (`modifiedDate` and `modifiedClientId` may be unset,
`modifiedProjectId` may be unset or null). -/
structure EditForm where
  modifiedDate : Option String
  modifiedHeureDebut : String
  modifiedHeureFin : String
  modifiedClientId : Option String
  modifiedProjectId : Option (Option String)
  modifiedAdresse : String
deriving DecidableEq

/-- The update payload `handleSaveChanges` builds: every form field, the recomputed
hours, and deliberately neither `statut_validation` nor `tarif_horaire_utilise`
(fields that are `undefined` are dropped from `cleanedUpdateData`, so an unset date,
client or project leaves the stored column as it is). -/
def applyEdit (f : EditForm) (hours : ℚ) (p : Prestation) : Prestation :=
  { p with
    date_prestation := f.modifiedDate.getD p.date_prestation,
    heure_debut := f.modifiedHeureDebut,
    heure_fin := f.modifiedHeureFin,
    heures_calculees := hours,
    client_id := f.modifiedClientId.getD p.client_id,
    project_id := (f.modifiedProjectId.map id).getD p.project_id,
    adresse := f.modifiedAdresse }

/-- Outcome of `handleSaveChanges`; `warned` records the `toast.warning` issued when the
recomputed hours are not positive. -/
inductive SaveOutcome
  | ok (warned : Bool)
  | missingDate
  | missingClient
deriving DecidableEq

/-- `handleSaveChanges` of `DashboardAdminPrestations.tsx`: recompute the hours from the
form times (`end - start` only when `end > start`, else 0, with a warning toast),
require a date and a client, then `update(cleanedUpdateData).eq('id', editingId)` —
again with no status guard and without touching `statut_validation` or
`tarif_horaire_utilise`. -/
def handleSaveChanges (db : DB) (editingId : String) (f : EditForm) : DB × SaveOutcome :=
  let hours := adminComputedHours f.modifiedHeureDebut f.modifiedHeureFin
  if f.modifiedDate.getD "" = "" then (db, .missingDate)
  else if f.modifiedClientId.getD "" = "" then (db, .missingClient)
  else
    ({ db with prestations := updateRow db.prestations editingId (applyEdit f hours) },
     .ok (decide (hours ≤ 0)))

/-- Outcome of `handleSaveAndValidate`. -/
inductive SaveValidateOutcome
  | okBoth (warned : Bool)
  | missingFields
  | clientFetchError (warned : Bool)
  | noTariff (warned : Bool)
deriving DecidableEq

/-- `handleSaveAndValidate` of `DashboardAdminPrestations.tsx`: the save step of
`handleSaveChanges` followed by the validation step of `handleValidate`, as two separate
sequential writes.  When the validation step throws (client fetch error or null tariff)
the already committed save is not rolled back. -/
def handleSaveAndValidate (db : DB) (editingId editingClientId : String) (f : EditForm) :
    DB × SaveValidateOutcome :=
  let hours := adminComputedHours f.modifiedHeureDebut f.modifiedHeureFin
  let warned := decide (hours ≤ 0)
  if f.modifiedDate.getD "" = "" ∨ f.modifiedClientId.getD "" = "" then (db, .missingFields)
  else
    let db1 : DB :=
      { db with prestations := updateRow db.prestations editingId (applyEdit f hours) }
    let cid := if f.modifiedClientId.getD "" = "" then editingClientId
               else f.modifiedClientId.getD ""
    match findRow db1.clients cid with
    | none => (db1, .clientFetchError warned)
    | some c =>
      match c.tarif_horaire with
      | none => (db1, .noTariff warned)
      | some t =>
        ({ db1 with prestations := updateRow db1.prestations editingId (fun p =>
            { p with statut_validation := "valide", tarif_horaire_utilise := some t }) },
         .okBoth warned)

/-- Modelled from the spec: the backend handler behind `brain.update_client`
(`PUT /routes/clients/{client_id}`, module `clients`) is not among the sources — only its
client stub in `Brain.ts` and its caller `ClientFormDialog.onSubmit` are.  Per the spec a
client "holds a *current* hourly rate (`tarif_horaire`) that is mutable at any time by an
admin": the update replaces the stored fields of the addressed client row and touches no
other table.  `ClientFormDialog.onSubmit` sends the full `ClientModel` payload. -/
def update_client (db : DB) (clientId : String) (payload : ClientRow) : DB :=
  { db with clients := updateRow db.clients clientId (fun _ => payload) }

/-! ## InvoiceBatchGenerator
Modelled from the spec: the backend behind `brain.generate_monthly_invoices`
(`POST /routes/generate-monthly-invoices`, module `invoicing`) is not among the sources —
only its client stub in `Brain.ts` ("Checks for existing invoices for the same
client/month/year before creating") and its caller `AdminInvoicing.handleGenerateInvoices`
are.  The algorithm below follows spec §4.3 step by step: select validated, uninvoiced
entries of the period, group by client, skip a client whose (client, period) invoice
already exists, otherwise create the invoice row and mark the group invoiced.  The PDF
rendering step only fills `pdf_link` and is irrelevant to the claims, so outcomes carry
no link. -/

/-- A work entry as the batch job sees it. -/
structure InvEntry where
  client_id : String
  month : Nat
  year : Nat
  statut_validation : String
  invoiced : Bool
  heures_calculees : ℚ
  tarif_horaire_utilise : Option ℚ
deriving DecidableEq

/-- A row of the invoices table. -/
structure InvoiceRow where
  client_id : String
  month : Nat
  year : Nat
  total_amount : ℚ
deriving DecidableEq

/-- One per-client outcome of a batch run: the amount and the entries it covered. -/
structure InvOutcome where
  client_id : String
  total_amount : ℚ
  entry_ids : List String
deriving DecidableEq

/-- Store of the batch job. -/
structure InvSt where
  entries : List (String × InvEntry)
  invoices : List InvoiceRow
deriving DecidableEq

/-- Spec §4.3 step 1: `status == Validated`, `invoiced == false`, date in the period. -/
def isEligible (m y : Nat) (e : InvEntry) : Bool :=
  e.statut_validation == "valide" && !e.invoiced && e.month == m && e.year == y

/-- The lookup-before-create check on (client, period). -/
def hasInvoice (invs : List InvoiceRow) (c : String) (m y : Nat) : Bool :=
  invs.any fun inv => inv.client_id == c && inv.month == m && inv.year == y

/-- The rows selected by step 1. -/
def eligibleRows (s : InvSt) (m y : Nat) : List (String × InvEntry) :=
  s.entries.filter fun r => isEligible m y r.2

/-- Spec §4.3 step 2: the clients that own at least one eligible entry. -/
def eligibleClients (s : InvSt) (m y : Nat) : List String :=
  ((eligibleRows s m y).map fun r => r.2.client_id).dedup

/-- One client's group of eligible rows. -/
def clientGroup (s : InvSt) (m y : Nat) (c : String) : List (String × InvEntry) :=
  (eligibleRows s m y).filter fun r => r.2.client_id == c

/-- Spec §4.3 step 4: `total_amount = Σ computed_hours × tariff_snapshot`. -/
def groupTotal (g : List (String × InvEntry)) : ℚ :=
  (g.map fun r => r.2.heures_calculees * r.2.tarif_horaire_utilise.getD 0).sum

/-- Mark every entry of the group `invoiced = true` (an update over the listed ids). -/
def markInvoiced : List (String × InvEntry) → List String → List (String × InvEntry)
  | [], _ => []
  | r :: rest, ids =>
    (if r.1 ∈ ids then (r.1, { r.2 with invoiced := true }) else r) :: markInvoiced rest ids

/-- Spec §4.3 steps 3-4 for a single client: skip entirely when an invoice for
(client, period) already exists; otherwise create the invoice row and mark the group
invoiced in the same transaction. -/
def processClient (m y : Nat) (s : InvSt) (c : String) : InvSt × Option InvOutcome :=
  if hasInvoice s.invoices c m y then (s, none)
  else
    let g := clientGroup s m y c
    ({ entries := markInvoiced s.entries (g.map Prod.fst),
       invoices := ⟨c, m, y, groupTotal g⟩ :: s.invoices },
     some ⟨c, groupTotal g, g.map Prod.fst⟩)

/-- Fold of `processClient` over the grouped clients, collecting the outcomes of the
clients that were not skipped (spec §4.3 step 6). -/
def generateAux (m y : Nat) : InvSt → List String → InvSt × List InvOutcome
  | s, [] => (s, [])
  | s, c :: cs =>
    let p := processClient m y s c
    let rest := generateAux m y p.1 cs
    (rest.1, p.2.elim rest.2 (· :: rest.2))

/-- `GenerateMonthlyInvoices(month, year)` per spec §4.3. -/
def generate_monthly_invoices (s : InvSt) (m y : Nat) : InvSt × List InvOutcome :=
  generateAux m y s (eligibleClients s m y)

/-- Relation between an entry row before and after a batch run: same key, same client,
status and period, and a row that is still uninvoiced afterwards was uninvoiced before. -/
def entryBack (r r' : String × InvEntry) : Prop :=
  r'.1 = r.1 ∧ r'.2.client_id = r.2.client_id ∧
  r'.2.statut_validation = r.2.statut_validation ∧
  r'.2.month = r.2.month ∧ r'.2.year = r.2.year ∧
  (r'.2.invoiced = false → r.2.invoiced = false)

/-! ## AuthContext profile resolution
(`utils/AuthContext`, src/unnamed/part_005, the `onAuthStateChange` handler and the
`isAdmin` helper). -/

/-- The `role` and `statut_validation` columns of a `profiles` row, both nullable. -/
structure ProfileRow where
  role : Option String
  statut_validation : Option String
deriving DecidableEq

/-- The three ways the profile query can come back: an error (including the thrown-
exception path, which runs the same fallback), no row, or a row. -/
inductive ProfileFetch
  | fetchFailure
  | notFound
  | found (row : ProfileRow)
deriving DecidableEq

/-- `const validStatuses = ['valide', 'en_attente', 'refuse']`. -/
def validStatuses : List String := ["valide", "en_attente", "refuse"]

/-- The role and status the handler stores on the app user. -/
structure ResolvedUser where
  role : String
  statut_validation : String
deriving DecidableEq

/-- The `onAuthStateChange` profile resolution: on a fetch error, a thrown exception or a
missing row, fall back to role `collaborateur` and status `inconnu`; on success sanitize
the status against `validStatuses` (defaulting to `inconnu`) and default a falsy role
(`profileData.role || 'collaborateur'`). -/
def resolveAuthUser : ProfileFetch → ResolvedUser
  | .fetchFailure => ⟨"collaborateur", "inconnu"⟩
  | .notFound => ⟨"collaborateur", "inconnu"⟩
  | .found row =>
      let finalStatus :=
        match row.statut_validation with
        | some s => if s ∈ validStatuses then s else "inconnu"
        | none => "inconnu"
      let role :=
        match row.role with
        | some r => if r = "" then "collaborateur" else r
        | none => "collaborateur"
      ⟨role, finalStatus⟩

/-- The `isAdmin` helper of the context: `user?.role === 'admin'`. -/
def isAdminUser (u : ResolvedUser) : Bool := u.role == "admin"

/-! ## Concrete example rows used by the closed counterexamples and witnesses. -/

/-- A client with hourly rate 50. -/
def cAcme50 : ClientRow := ⟨"Acme", some 50⟩

/-- The same client after its rate was raised to 60. -/
def cAcme60 : ClientRow := ⟨"Acme", some 60⟩

/-- A client without a configured hourly rate. -/
def cNoRate : ClientRow := ⟨"Beta", none⟩

/-- A pending overnight prestation (22:00 to 02:00, 4 h as computed at submission). -/
def pPending : Prestation :=
  ⟨"2024-03-01", "22:00", "02:00", 4, "Rue A 1", "en_attente", none, "c1", none⟩

/-- A prestation already validated with a snapshot of 50. -/
def pValidated50 : Prestation :=
  ⟨"2024-03-01", "09:00", "17:00", 8, "Rue A 1", "valide", some 50, "c1", none⟩

/-- Store holding the validated prestation while the client rate has moved to 60. -/
def dbRevalidate : DB := ⟨[("p1", pValidated50)], [("c1", cAcme60)]⟩

/-- Store holding the pending prestation and the rate-50 client. -/
def dbPending : DB := ⟨[("p1", pPending)], [("c1", cAcme50)]⟩

/-- Store holding the validated prestation and the rate-50 client. -/
def dbValidated : DB := ⟨[("p1", pValidated50)], [("c1", cAcme50)]⟩

/-- Store holding the pending prestation and a client without a rate. -/
def dbNoRate : DB := ⟨[("p1", pPending)], [("c2", cNoRate)]⟩

/-- A filled modification form moving the prestation to address `Rue B 2`. -/
def formDay : EditForm := ⟨some "2024-03-02", "09:00", "17:00", some "c1", some none, "Rue B 2"⟩

/-- A filled modification form with the overnight span 22:00 to 02:00. -/
def formOvernight : EditForm :=
  ⟨some "2024-03-01", "22:00", "02:00", some "c1", some none, "Rue A 1"⟩

/-- A filled modification form with equal start and end times. -/
def formEqualTimes : EditForm :=
  ⟨some "2024-03-01", "09:00", "09:00", some "c1", some none, "Rue A 1"⟩

/-- A filled modification form that moves the prestation to the rate-less client. -/
def formToNoRate : EditForm :=
  ⟨some "2024-03-02", "09:00", "17:00", some "c2", some none, "Rue B 2"⟩

/-! ## Table lemmas -/

theorem findRow_updateRow_self {α : Type} (t : List (String × α)) (k : String) (f : α → α) :
    findRow (updateRow t k f) k = (findRow t k).map f := by
  induction t with
  | nil => rfl
  | cons e rest ih =>
    by_cases h : e.1 = k
    · simp [updateRow, findRow, h]
    · simp [updateRow, findRow, h, ih]

theorem findRow_updateRow_ne {α : Type} (t : List (String × α)) (k k' : String) (f : α → α)
    (h : k' ≠ k) : findRow (updateRow t k f) k' = findRow t k' := by
  induction t with
  | nil => rfl
  | cons e rest ih =>
    by_cases he : e.1 = k
    · have h1 : ¬ e.1 = k' := by rw [he]; exact fun hk => h hk.symm
      simp only [updateRow, findRow, if_pos he]
      rw [if_neg (by simpa [he] using h1), if_neg h1, ih]
    · simp only [updateRow, findRow, if_neg he]
      by_cases he' : e.1 = k'
      · rw [if_pos he', if_pos he']
      · rw [if_neg he', if_neg he', ih]

/-- A string matching the HH:MM regex encodes at most 23 h 59 min = 1439 minutes. -/
theorem timeMinutes_le_of_isHHMM (s : String) (h : isHHMM s = true) : timeMinutes s ≤ 1439 := by
  unfold isHHMM at h
  unfold timeMinutes timeParts
  rcases hd : s.data with _ | ⟨h1, _ | ⟨h2, _ | ⟨c, _ | ⟨m1, _ | ⟨m2, _ | rest⟩⟩⟩⟩⟩ <;>
    rw [hd] at h <;> simp_all
  omega

/-! ## Batch-generator lemmas -/

theorem hasInvoice_true_iff (invs : List InvoiceRow) (c : String) (m y : Nat) :
    hasInvoice invs c m y = true ↔
      ∃ inv ∈ invs, inv.client_id = c ∧ inv.month = m ∧ inv.year = y := by
  simp [hasInvoice, List.any_eq_true, and_assoc]

theorem mem_invoices_processClient (m y : Nat) (s : InvSt) (c : String) (inv : InvoiceRow)
    (h : inv ∈ s.invoices) : inv ∈ (processClient m y s c).1.invoices := by
  unfold processClient
  split
  · exact h
  · exact List.mem_cons_of_mem _ h

theorem mem_invoices_generateAux (m y : Nat) (s : InvSt) (cs : List String) (inv : InvoiceRow)
    (h : inv ∈ s.invoices) : inv ∈ (generateAux m y s cs).1.invoices := by
  induction cs generalizing s with
  | nil => exact h
  | cons c cs ih => exact ih _ (mem_invoices_processClient m y s c inv h)

theorem hasInvoice_mono_generateAux (m y : Nat) (s : InvSt) (cs : List String) (c : String)
    (h : hasInvoice s.invoices c m y = true) :
    hasInvoice (generateAux m y s cs).1.invoices c m y = true := by
  rw [hasInvoice_true_iff] at h ⊢
  obtain ⟨inv, hmem, hprops⟩ := h
  exact ⟨inv, mem_invoices_generateAux m y s cs inv hmem, hprops⟩

theorem hasInvoice_processClient_self (m y : Nat) (s : InvSt) (c : String) :
    hasInvoice (processClient m y s c).1.invoices c m y = true := by
  unfold processClient
  split
  · assumption
  · rw [hasInvoice_true_iff]
    exact ⟨⟨c, m, y, groupTotal (clientGroup s m y c)⟩, List.mem_cons_self _ _, rfl, rfl, rfl⟩

theorem hasInvoice_generateAux_of_mem (m y : Nat) (s : InvSt) (cs : List String) (c : String) :
    c ∈ cs → hasInvoice (generateAux m y s cs).1.invoices c m y = true := by
  induction cs generalizing s with
  | nil => intro h; cases h
  | cons a cs ih =>
    intro h
    rcases List.mem_cons.mp h with rfl | h'
    · exact hasInvoice_mono_generateAux m y _ cs c (hasInvoice_processClient_self m y s c)
    · exact ih _ h'

theorem generateAux_skip_all (m y : Nat) (s : InvSt) (cs : List String)
    (h : ∀ c ∈ cs, hasInvoice s.invoices c m y = true) : generateAux m y s cs = (s, []) := by
  induction cs with
  | nil => rfl
  | cons a cs ih =>
    have ha := h a (List.mem_cons_self a cs)
    have hrest := ih (fun c hc => h c (List.mem_cons_of_mem a hc))
    have hpc : processClient m y s a = (s, none) := by unfold processClient; rw [if_pos ha]
    simp only [generateAux, hpc, hrest, Option.elim]

theorem entryBack_refl (r : String × InvEntry) : entryBack r r :=
  ⟨rfl, rfl, rfl, rfl, rfl, fun h => h⟩

theorem entryBack_trans {a b c : String × InvEntry} (h1 : entryBack a b) (h2 : entryBack b c) :
    entryBack a c := by
  obtain ⟨k1, c1, s1, m1, y1, i1⟩ := h1
  obtain ⟨k2, c2, s2, m2, y2, i2⟩ := h2
  exact ⟨k2.trans k1, c2.trans c1, s2.trans s1, m2.trans m1, y2.trans y1, fun h => i1 (i2 h)⟩

theorem forall2_markInvoiced (l : List (String × InvEntry)) (ids : List String) :
    List.Forall₂ entryBack l (markInvoiced l ids) := by
  induction l with
  | nil => exact List.Forall₂.nil
  | cons r rest ih =>
    simp only [markInvoiced]
    refine List.Forall₂.cons ?_ ih
    by_cases h : r.1 ∈ ids
    · rw [if_pos h]
      exact ⟨rfl, rfl, rfl, rfl, rfl, fun hf => by simp at hf⟩
    · rw [if_neg h]
      exact entryBack_refl r

theorem forall2_entryBack_comp {l1 l2 l3 : List (String × InvEntry)}
    (h1 : List.Forall₂ entryBack l1 l2) (h2 : List.Forall₂ entryBack l2 l3) :
    List.Forall₂ entryBack l1 l3 := by
  induction h1 generalizing l3 with
  | nil => cases h2; exact List.Forall₂.nil
  | cons hab h1' ih =>
    cases h2 with
    | cons hbc h2' => exact List.Forall₂.cons (entryBack_trans hab hbc) (ih h2')

theorem forall2_processClient (m y : Nat) (s : InvSt) (c : String) :
    List.Forall₂ entryBack s.entries (processClient m y s c).1.entries := by
  unfold processClient
  split
  · exact List.forall₂_same.mpr (fun r _ => entryBack_refl r)
  · exact forall2_markInvoiced s.entries _

theorem forall2_generateAux (m y : Nat) (s : InvSt) (cs : List String) :
    List.Forall₂ entryBack s.entries (generateAux m y s cs).1.entries := by
  induction cs generalizing s with
  | nil => exact List.forall₂_same.mpr (fun r _ => entryBack_refl r)
  | cons a cs ih =>
    exact forall2_entryBack_comp (forall2_processClient m y s a) (ih _)

theorem exists_of_forall2_mem {l l' : List (String × InvEntry)}
    (h : List.Forall₂ entryBack l l') :
    ∀ r' ∈ l', ∃ r ∈ l, entryBack r r' := by
  induction h with
  | nil => intro r' hm; cases hm
  | cons hab h ih =>
    intro r' hm
    rcases List.mem_cons.mp hm with rfl | hm'
    · exact ⟨_, List.mem_cons_self _ _, hab⟩
    · obtain ⟨r, hr, hrb⟩ := ih r' hm'
      exact ⟨r, List.mem_cons_of_mem _ hr, hrb⟩

theorem mem_eligibleClients_iff (s : InvSt) (m y : Nat) (c : String) :
    c ∈ eligibleClients s m y ↔
      ∃ r ∈ s.entries, isEligible m y r.2 = true ∧ r.2.client_id = c := by
  unfold eligibleClients eligibleRows
  rw [List.mem_dedup]
  simp only [List.mem_map, List.mem_filter]
  constructor
  · rintro ⟨r, ⟨hr, he⟩, hc⟩
    exact ⟨r, hr, he, hc⟩
  · rintro ⟨r, hr, he, hc⟩
    exact ⟨r, ⟨hr, he⟩, hc⟩

theorem isEligible_of_entryBack {m y : Nat} {r r' : String × InvEntry}
    (hb : entryBack r r') (he : isEligible m y r'.2 = true) : isEligible m y r.2 = true := by
  obtain ⟨_, hc, hs, hm, hy, hi⟩ := hb
  simp only [isEligible, Bool.and_eq_true, beq_iff_eq, Bool.not_eq_true'] at he ⊢
  obtain ⟨⟨⟨hs', hi'⟩, hm'⟩, hy'⟩ := he
  refine ⟨⟨⟨?_, hi hi'⟩, ?_⟩, ?_⟩
  · rw [← hs]; exact hs'
  · rw [← hm]; exact hm'
  · rw [← hy]; exact hy'

theorem eligibleClients_generateAux_subset (m y : Nat) (s : InvSt) (cs : List String)
    (c : String) (h : c ∈ eligibleClients (generateAux m y s cs).1 m y) :
    c ∈ eligibleClients s m y := by
  rw [mem_eligibleClients_iff] at h ⊢
  obtain ⟨r', hr', he', hc'⟩ := h
  obtain ⟨r, hr, hb⟩ := exists_of_forall2_mem (forall2_generateAux m y s cs) r' hr'
  refine ⟨r, hr, isEligible_of_entryBack hb he', ?_⟩
  rw [← hb.2.1]; exact hc'

/-! ## Claim theorems -/

/-- C4 counterexample: the claim asserts the overnight rule holds "on every path that
computes billable hours, including recomputation during an admin amendment", but saving
an admin amendment with the overnight span 22:00 → 02:00 persists 0 computed hours
(with only a warning), not (1440 − 1320 + 120) / 60 = 4. -/
theorem admin_overnight_counterexample :
    (handleSaveChanges dbPending "p1" formOvernight).2 = SaveOutcome.ok true ∧
    (findRow (handleSaveChanges dbPending "p1" formOvernight).1.prestations "p1").map
      (fun q => q.heures_calculees) = some 0 ∧
    ¬ (findRow (handleSaveChanges dbPending "p1" formOvernight).1.prestations "p1").map
      (fun q => q.heures_calculees) = some 4 := by
  with_unfolding_all decide

/-- C4 (amended): on the collaborator submission path (`onSubmit` of
`DashboardCollaborateur`) the duration computation does treat `end_time <= start_time`
as a next-day end and returns (1440 − start_minutes + end_minutes) / 60 rounded to two
decimals; the admin amendment recomputation, however, has no overnight handling and
yields 0 for every such pair of parsed times. -/
theorem overnight_paths (debut fin : String) :
    (isHHMM debut = true → isHHMM fin = true →
      timeMinutes fin ≤ timeMinutes debut → timeMinutes debut ≠ timeMinutes fin →
      onSubmitHours debut fin =
        round2 ((1440 - (timeMinutes debut : ℚ) + (timeMinutes fin : ℚ)) / 60)) ∧
    (∀ s e : ℚ, parseTimeJS debut = some s → parseTimeJS fin = some e → e ≤ s →
      adminComputedHours debut fin = 0) := by
  constructor
  · intro hd hf hle hne
    have hb : timeMinutes debut ≤ 1439 := timeMinutes_le_of_isHHMM debut hd
    unfold onSubmitHours adjustedEnd
    rw [if_pos hle]
    have h1 : timeMinutes debut ≤ timeMinutes fin + 1440 := by omega
    rw [Nat.cast_sub h1]
    unfold round2
    congr 2
    push_cast
    ring_nf
  · intro s e hs he hle
    simp only [adminComputedHours, hs, he]
    rw [if_neg (not_lt.mpr hle)]

/-- Witness for the C4 theorem at 22:00 → 02:00: the collaborator path returns the
overnight formula value and the admin path returns 0. -/
theorem overnight_paths_witness :
    onSubmitHours "22:00" "02:00" =
      round2 ((1440 - (timeMinutes "22:00" : ℚ) + (timeMinutes "02:00" : ℚ)) / 60) ∧
    adminComputedHours "22:00" "02:00" = 0 :=
  ⟨(overnight_paths "22:00" "02:00").1 (by decide) (by decide) (by decide) (by decide),
   (overnight_paths "22:00" "02:00").2 22 2 (by with_unfolding_all decide)
     (by with_unfolding_all decide) (by norm_num)⟩

/-- C5 counterexample: the claim asserts `compute(d, "09:00", "09:00")` fails with
`NonPositiveDuration`; in the code the schema refine accepts equal times (after the
overnight adjustment the end is always after the start) and the computation returns a
full 24-hour day, not an error. -/
theorem submit_equal_times_counterexample :
    submitPrestation "09:00" "09:00" = SubmitResult.accepted 24 ∧
    ¬ submitPrestation "09:00" "09:00" = SubmitResult.rejected := by
  with_unfolding_all decide

/-- C5 (amended): for every valid HH:MM time `t`, submitting equal start and end times is
accepted — the refine cannot fail on parsed times — and the computed duration is 24.00
hours; no `NonPositiveDuration` error path exists in the code. -/
theorem submit_equal_times_full_day (t : String) (h : isHHMM t = true) :
    submitPrestation t t = SubmitResult.accepted 24 := by
  have hrefine : refineOk t t = true := by
    unfold refineOk adjustedEnd
    rw [if_pos (le_refl _)]
    simp
  unfold submitPrestation
  rw [h, hrefine]
  simp only [Bool.and_self, Bool.and_true, if_true]
  have h1440 : adjustedEnd t t - timeMinutes t = 1440 := by
    unfold adjustedEnd
    rw [if_pos (le_refl _)]
    omega
  unfold onSubmitHours
  rw [h1440]
  with_unfolding_all decide

/-- Witness for the C5 theorem at 09:00. -/
theorem submit_equal_times_full_day_witness :
    submitPrestation "09:00" "09:00" = SubmitResult.accepted 24 :=
  submit_equal_times_full_day "09:00" (by decide)

/-- C1 counterexample: validate the pending entry at rate 50, raise the client rate to
60, validate again — the second call returns `ok` (not a conflict) and overwrites the
stored snapshot with the re-read current rate 60, so the snapshot no longer equals the
value captured by the first successful validate. -/
theorem validate_twice_counterexample :
    (handleValidate
      (update_client (handleValidate dbPending "p1" "c1").1 "c1" cAcme60) "p1" "c1").2 =
      ValidateOutcome.ok ∧
    (findRow (handleValidate dbPending "p1" "c1").1.prestations "p1").map
      (fun q => q.tarif_horaire_utilise) = some (some 50) ∧
    (findRow (handleValidate
        (update_client (handleValidate dbPending "p1" "c1").1 "c1" cAcme60) "p1" "c1").1.prestations
        "p1").map (fun q => q.tarif_horaire_utilise) = some (some 60) ∧
    ¬ ((some (50 : ℚ) : Option ℚ) = some 60) := by
  with_unfolding_all decide

/-- C1 (amended): calling `handleValidate` on an entry whose status is already
`valide` does not return a conflict error — the unguarded update succeeds again and
re-reads the client's current hourly rate into `tarif_horaire_utilise`, overwriting
whatever the first validate captured. -/
theorem validate_revalidate_overwrites (db : DB) (pid cid : String) (c : ClientRow)
    (t : ℚ) (p : Prestation)
    (hc : findRow db.clients cid = some c) (ht : c.tarif_horaire = some t)
    (hp : findRow db.prestations pid = some p) (_hv : p.statut_validation = "valide") :
    (handleValidate db pid cid).2 = ValidateOutcome.ok ∧
    (findRow (handleValidate db pid cid).1.prestations pid).map
      (fun q => q.tarif_horaire_utilise) = some (some t) := by
  constructor
  · simp [handleValidate, hc, ht]
  · simp only [handleValidate, hc, ht]
    rw [findRow_updateRow_self, hp]
    rfl

/-- Witness for the C1 theorem: the store already holds the entry validated at 50 while
the client rate is 60; revalidating returns `ok` and stores 60. -/
theorem validate_revalidate_overwrites_witness :
    (handleValidate dbRevalidate "p1" "c1").2 = ValidateOutcome.ok ∧
    (findRow (handleValidate dbRevalidate "p1" "c1").1.prestations "p1").map
      (fun q => q.tarif_horaire_utilise) = some (some 60) :=
  validate_revalidate_overwrites dbRevalidate "p1" "c1" cAcme60 60 pValidated50
    (by with_unfolding_all decide) (by with_unfolding_all decide)
    (by with_unfolding_all decide) (by with_unfolding_all decide)

/-- C2: updating a client via the client-update operation rewrites only the `clients`
table, so the `tarif_horaire_utilise` snapshot already stored by a validate is
untouched: after validating at rate 50 and then changing the client row arbitrarily
(in particular to rate 60), re-reading the entry still yields a snapshot of 50. -/
theorem rate_change_isolation (db : DB) (pid cid : String) (c : ClientRow) (p : Prestation)
    (payload : ClientRow)
    (hc : findRow db.clients cid = some c) (ht : c.tarif_horaire = some 50)
    (hp : findRow db.prestations pid = some p) :
    (update_client (handleValidate db pid cid).1 cid payload).prestations =
      (handleValidate db pid cid).1.prestations ∧
    (findRow (update_client (handleValidate db pid cid).1 cid payload).prestations pid).map
      (fun q => q.tarif_horaire_utilise) = some (some 50) := by
  refine ⟨rfl, ?_⟩
  show (findRow (handleValidate db pid cid).1.prestations pid).map
    (fun q => q.tarif_horaire_utilise) = some (some 50)
  simp only [handleValidate, hc, ht]
  rw [findRow_updateRow_self, hp]
  rfl

/-- Witness for the C2 theorem: validate the pending entry at rate 50, then raise the
client rate to 60; the stored snapshot is still 50. -/
theorem rate_change_isolation_witness :
    (update_client (handleValidate dbPending "p1" "c1").1 "c1" cAcme60).prestations =
      (handleValidate dbPending "p1" "c1").1.prestations ∧
    (findRow (update_client (handleValidate dbPending "p1" "c1").1 "c1" cAcme60).prestations
      "p1").map (fun q => q.tarif_horaire_utilise) = some (some 50) :=
  rate_change_isolation dbPending "p1" "c1" cAcme50 pPending cAcme60
    (by with_unfolding_all decide) (by with_unfolding_all decide)
    (by with_unfolding_all decide)

/-- C6 counterexample: `handleSaveChanges` on an entry whose status is `valide` (not
`en_attente`) does not fail with a conflict error — the unguarded update succeeds, the
amendable fields change (here the address), and the entry is not left unchanged. -/
theorem amend_validated_counterexample :
    (handleSaveChanges dbValidated "p1" formDay).2 = SaveOutcome.ok false ∧
    (findRow (handleSaveChanges dbValidated "p1" formDay).1.prestations "p1").map
      (fun q => q.adresse) = some "Rue B 2" ∧
    (findRow (handleSaveChanges dbValidated "p1" formDay).1.prestations "p1").map
      (fun q => q.statut_validation) = some "valide" ∧
    ¬ findRow (handleSaveChanges dbValidated "p1" formDay).1.prestations "p1" =
      some pValidated50 := by
  with_unfolding_all decide

/-- C6 (amended): the amend operation is unguarded by status: on any entry, whatever its
`statut_validation`, a save with a date and a client succeeds, overwrites the amendable
fields with the form values and the recomputed `computed_hours` (0 whenever the parsed
times do not satisfy end > start), and never writes `statut_validation` or
`tarif_horaire_utilise`. -/
theorem amend_unguarded (db : DB) (id : String) (f : EditForm) (p : Prestation)
    (hp : findRow db.prestations id = some p)
    (hdate : ¬ f.modifiedDate.getD "" = "") (hclient : ¬ f.modifiedClientId.getD "" = "") :
    (handleSaveChanges db id f).2 =
      SaveOutcome.ok
        (decide (adminComputedHours f.modifiedHeureDebut f.modifiedHeureFin ≤ 0)) ∧
    findRow (handleSaveChanges db id f).1.prestations id =
      some (applyEdit f (adminComputedHours f.modifiedHeureDebut f.modifiedHeureFin) p) ∧
    (applyEdit f (adminComputedHours f.modifiedHeureDebut f.modifiedHeureFin)
      p).statut_validation = p.statut_validation ∧
    (applyEdit f (adminComputedHours f.modifiedHeureDebut f.modifiedHeureFin)
      p).tarif_horaire_utilise = p.tarif_horaire_utilise := by
  simp only [handleSaveChanges]
  rw [if_neg hdate, if_neg hclient]
  refine ⟨rfl, ?_, rfl, rfl⟩
  rw [findRow_updateRow_self, hp]
  rfl

/-- Witness for the C6 theorem: saving the day form over the validated entry succeeds and
rewrites it with the edited fields, status and snapshot untouched. -/
theorem amend_unguarded_witness :
    (handleSaveChanges dbValidated "p1" formDay).2 =
      SaveOutcome.ok
        (decide (adminComputedHours formDay.modifiedHeureDebut formDay.modifiedHeureFin ≤ 0)) ∧
    findRow (handleSaveChanges dbValidated "p1" formDay).1.prestations "p1" =
      some (applyEdit formDay
        (adminComputedHours formDay.modifiedHeureDebut formDay.modifiedHeureFin)
        pValidated50) ∧
    (applyEdit formDay
      (adminComputedHours formDay.modifiedHeureDebut formDay.modifiedHeureFin)
      pValidated50).statut_validation = pValidated50.statut_validation ∧
    (applyEdit formDay
      (adminComputedHours formDay.modifiedHeureDebut formDay.modifiedHeureFin)
      pValidated50).tarif_horaire_utilise = pValidated50.tarif_horaire_utilise :=
  amend_unguarded dbValidated "p1" formDay pValidated50
    (by with_unfolding_all decide) (by with_unfolding_all decide)
    (by with_unfolding_all decide)

/-- C7: in `handleSaveAndValidate`, when the save step succeeds and the validation step
then fails (missing client row or null tariff), the amendment is not rolled back — the
stored entry carries the amended fields while its `statut_validation` stays
`en_attente` and `tarif_horaire_utilise` stays `null`. -/
theorem amend_durable_when_validate_fails (db : DB) (id ecid : String) (f : EditForm)
    (p : Prestation)
    (hp : findRow db.prestations id = some p)
    (hdate : ¬ f.modifiedDate.getD "" = "") (hclient : ¬ f.modifiedClientId.getD "" = "")
    (hpending : p.statut_validation = "en_attente")
    (hsnap : p.tarif_horaire_utilise = none)
    (hfail : findRow db.clients (f.modifiedClientId.getD "") = none ∨
      (∃ c, findRow db.clients (f.modifiedClientId.getD "") = some c ∧
        c.tarif_horaire = none)) :
    ((handleSaveAndValidate db id ecid f).2 =
        SaveValidateOutcome.clientFetchError
          (decide (adminComputedHours f.modifiedHeureDebut f.modifiedHeureFin ≤ 0)) ∨
     (handleSaveAndValidate db id ecid f).2 =
        SaveValidateOutcome.noTariff
          (decide (adminComputedHours f.modifiedHeureDebut f.modifiedHeureFin ≤ 0))) ∧
    findRow (handleSaveAndValidate db id ecid f).1.prestations id =
      some (applyEdit f (adminComputedHours f.modifiedHeureDebut f.modifiedHeureFin) p) ∧
    (applyEdit f (adminComputedHours f.modifiedHeureDebut f.modifiedHeureFin)
      p).statut_validation = "en_attente" ∧
    (applyEdit f (adminComputedHours f.modifiedHeureDebut f.modifiedHeureFin)
      p).tarif_horaire_utilise = none := by
  have hna : ¬ (f.modifiedDate.getD "" = "" ∨ f.modifiedClientId.getD "" = "") := by
    rintro (h | h)
    · exact hdate h
    · exact hclient h
  simp only [handleSaveAndValidate]
  rw [if_neg hna, if_neg hclient]
  rcases hfail with hnone | ⟨c, hc, ht⟩
  · simp only [hnone]
    refine ⟨Or.inl trivial, ?_, hpending, hsnap⟩
    rw [findRow_updateRow_self, hp]
    rfl
  · simp only [hc, ht]
    refine ⟨Or.inr trivial, ?_, hpending, hsnap⟩
    rw [findRow_updateRow_self, hp]
    rfl

/-- Witness for the C7 theorem: moving the pending entry onto the rate-less client and
then validating fails at the tariff check, yet the amended fields are stored and the
entry is still pending without a snapshot. -/
theorem amend_durable_when_validate_fails_witness :
    ((handleSaveAndValidate dbNoRate "p1" "c1" formToNoRate).2 =
        SaveValidateOutcome.clientFetchError
          (decide (adminComputedHours formToNoRate.modifiedHeureDebut
            formToNoRate.modifiedHeureFin ≤ 0)) ∨
     (handleSaveAndValidate dbNoRate "p1" "c1" formToNoRate).2 =
        SaveValidateOutcome.noTariff
          (decide (adminComputedHours formToNoRate.modifiedHeureDebut
            formToNoRate.modifiedHeureFin ≤ 0))) ∧
    findRow (handleSaveAndValidate dbNoRate "p1" "c1" formToNoRate).1.prestations "p1" =
      some (applyEdit formToNoRate
        (adminComputedHours formToNoRate.modifiedHeureDebut formToNoRate.modifiedHeureFin)
        pPending) ∧
    (applyEdit formToNoRate
      (adminComputedHours formToNoRate.modifiedHeureDebut formToNoRate.modifiedHeureFin)
      pPending).statut_validation = "en_attente" ∧
    (applyEdit formToNoRate
      (adminComputedHours formToNoRate.modifiedHeureDebut formToNoRate.modifiedHeureFin)
      pPending).tarif_horaire_utilise = none :=
  amend_durable_when_validate_fails dbNoRate "p1" "c1" formToNoRate pPending
    (by with_unfolding_all decide) (by with_unfolding_all decide)
    (by with_unfolding_all decide) (by with_unfolding_all decide)
    (by with_unfolding_all decide)
    (Or.inr ⟨cNoRate, by with_unfolding_all decide, rfl⟩)

/-- C8: validating an entry whose client has no configured rate fails at the tariff
precondition and performs no state change at all — the returned store is the input
store, so the entry keeps its status and its null snapshot. -/
theorem validate_no_rate (db : DB) (pid cid : String) (c : ClientRow)
    (hc : findRow db.clients cid = some c) (ht : c.tarif_horaire = none) :
    handleValidate db pid cid = (db, ValidateOutcome.noTariff) := by
  simp only [handleValidate, hc, ht]

/-- Witness for the C8 theorem on the rate-less client. -/
theorem validate_no_rate_witness :
    handleValidate dbNoRate "p1" "c2" = (dbNoRate, ValidateOutcome.noTariff) :=
  validate_no_rate dbNoRate "p1" "c2" cNoRate (by with_unfolding_all decide) rfl

/-- C9: an admin amendment whose parsed times do not satisfy end > start (overnight or
equal times alike) still saves successfully: the stored `heures_calculees` becomes 0 and
the outcome only carries the warning flag, not an error. -/
theorem amend_zero_hours_warns (db : DB) (id : String) (f : EditForm) (p : Prestation)
    (s e : ℚ)
    (hp : findRow db.prestations id = some p)
    (hs : parseTimeJS f.modifiedHeureDebut = some s)
    (he : parseTimeJS f.modifiedHeureFin = some e)
    (hle : ¬ s < e)
    (hdate : ¬ f.modifiedDate.getD "" = "") (hclient : ¬ f.modifiedClientId.getD "" = "") :
    (handleSaveChanges db id f).2 = SaveOutcome.ok true ∧
    (findRow (handleSaveChanges db id f).1.prestations id).map
      (fun q => q.heures_calculees) = some 0 := by
  have hzero : adminComputedHours f.modifiedHeureDebut f.modifiedHeureFin = 0 := by
    simp only [adminComputedHours, hs, he]
    rw [if_neg hle]
  simp only [handleSaveChanges, hzero]
  rw [if_neg hdate, if_neg hclient]
  constructor
  · simp
  · rw [findRow_updateRow_self, hp]
    rfl

/-- Witness for the C9 theorem: saving the 09:00 → 09:00 form over the pending entry
returns the warned success and stores 0 hours. -/
theorem amend_zero_hours_warns_witness :
    (handleSaveChanges dbPending "p1" formEqualTimes).2 = SaveOutcome.ok true ∧
    (findRow (handleSaveChanges dbPending "p1" formEqualTimes).1.prestations "p1").map
      (fun q => q.heures_calculees) = some 0 :=
  amend_zero_hours_warns dbPending "p1" formEqualTimes pPending 9 9
    (by with_unfolding_all decide) (by with_unfolding_all decide)
    (by with_unfolding_all decide) (by with_unfolding_all decide)
    (by with_unfolding_all decide) (by with_unfolding_all decide)

/-- C3: running `GenerateMonthlyInvoices(m, y)` twice in sequence is idempotent: the
second run returns no outcome at all — so no invoice and no amount for any client
invoiced in the first run — and leaves the store untouched, so no work entry is marked
or summed a second time.  Every client owning an entry still eligible after the first
run already has an invoice for the period (it was either processed or skipped), and the
lookup-before-create guard therefore skips every group. -/
theorem generate_twice_skips_all (s : InvSt) (m y : Nat) :
    generate_monthly_invoices (generate_monthly_invoices s m y).1 m y =
      ((generate_monthly_invoices s m y).1, []) := by
  unfold generate_monthly_invoices
  apply generateAux_skip_all
  intro c hc
  have hc0 : c ∈ eligibleClients s m y :=
    eligibleClients_generateAux_subset m y s (eligibleClients s m y) c hc
  exact hasInvoice_generateAux_of_mem m y s (eligibleClients s m y) c hc0

/-- A first batch run on a concrete store is not a no-op: two validated uninvoiced
March-2024 entries of one client yield a single outcome totalling 3·40 + 2·40 = 200,
and the second run (per the C3 theorem) then finds the invoice and skips. -/
theorem generate_first_run_concrete :
    (generate_monthly_invoices
      ⟨[("e1", ⟨"c1", 3, 2024, "valide", false, 3, some 40⟩),
        ("e2", ⟨"c1", 3, 2024, "valide", false, 2, some 40⟩)], []⟩ 3 2024).2 =
      [⟨"c1", 200, ["e1", "e2"]⟩] := by
  with_unfolding_all decide

/-- C10: every user object the auth context produces has `statut_validation` in the
closed set {valide, en_attente, refuse, inconnu} — any unrecognized, null or
unfetchable persisted status maps to `inconnu` — and when the profile row is missing or
its fetch fails the role is the default `collaborateur`, so a profile-fetch failure can
never yield `isAdmin = true`. -/
theorem auth_status_closed (pf : ProfileFetch) :
    (resolveAuthUser pf).statut_validation ∈ ["valide", "en_attente", "refuse", "inconnu"] ∧
    ((pf = ProfileFetch.fetchFailure ∨ pf = ProfileFetch.notFound) →
      (resolveAuthUser pf).role = "collaborateur" ∧
      isAdminUser (resolveAuthUser pf) = false) := by
  cases pf with
  | fetchFailure => exact ⟨by simp [resolveAuthUser], fun _ => ⟨rfl, rfl⟩⟩
  | notFound => exact ⟨by simp [resolveAuthUser], fun _ => ⟨rfl, rfl⟩⟩
  | found row =>
    refine ⟨?_, ?_⟩
    · cases hs : row.statut_validation with
      | none => simp [resolveAuthUser, hs]
      | some v =>
        by_cases hv : v ∈ validStatuses
        · simp only [resolveAuthUser, hs, if_pos hv]
          simp only [validStatuses, List.mem_cons, List.not_mem_nil, or_false] at hv
          rcases hv with rfl | rfl | rfl
          · decide
          · decide
          · decide
        · simp [resolveAuthUser, hs, if_neg hv]
    · rintro (h | h) <;> cases h

/-- Witness for the C10 theorem at the fetch-failure case. -/
theorem auth_status_closed_witness :
    (resolveAuthUser ProfileFetch.fetchFailure).role = "collaborateur" ∧
    isAdminUser (resolveAuthUser ProfileFetch.fetchFailure) = false :=
  (auth_status_closed ProfileFetch.fetchFailure).2 (Or.inl rfl)
